import Mathlib

/-!
Verification development for the chat access bot.

Shallow embedding of the repository's core:
  * `database.py`  — the `Database` class over two tables (`users`,
    `scheduled_messages`), modelled as lists of records inside `DBState`;
  * `access_bot.py` — the join-request flow (`handle_join_request`,
    `check_and_add_user`, `wait_for_email`, `catch_email`), the daily
    reconciliation (`check_all_chats`) and the deferred-notification
    dispatcher (`process_scheduled_messages` / `send_delayed_message`);
  * `gc_client.py` — the argument-validation layer of the GetCourse client
    (`get_user_group_ids_by_email`, `get_group_emails`); the HTTP transport
    is an oracle parameter.

Modelling conventions:
  * All platform / network calls are oracles passed in environment records
    (`JoinEnv`, `ReconEnv`); an oracle answering `false` / `none` stands for
    the call raising `TelegramAPIError` (resp. any exception), which the
    source catches at the sites modelled here.
  * Timestamps and offsets are `Int` numbers of time-units (seconds).
  * Message texts from `config.MESSAGES` are abstracted by their config key;
    only identity of the payload matters to the claims.
  * Sends other than the greeting (whose failure the source catches and
    which aborts the flow) are modelled as delivered; the source does not
    catch their errors, and no claim concerns their failure.
-/

namespace GCBot

/-- Row of the `users` table: `(chat_id, user_id, email)`. -/
structure UserRec where
  chat_id : Int
  user_id : Int
  email : String
deriving DecidableEq, Repr

/-- Row of the `scheduled_messages` table (the auto-increment id is not
observable by any modelled operation and is omitted). -/
structure SchedMsg where
  user_id : Int
  message : String
  send_time : Int
deriving DecidableEq, Repr

/-- The SQLite database: the `users` table and the `scheduled_messages`
table, each as a list of rows in insertion order. -/
structure DBState where
  users : List UserRec
  sched : List SchedMsg
deriving DecidableEq, Repr

namespace Database

/-- Model of `Database.is_duplicate`: `SELECT 1 FROM users WHERE email = ?` is
non-empty. -/
def is_duplicate (st : DBState) (email : String) : Bool :=
  st.users.any (fun r => r.email == email)

/-- Model of `Database.add`: `INSERT INTO users (chat_id, user_id, email) VALUES (?,?,?)`. -/
def add (st : DBState) (user_id : Int) (email : String) (chat_id : Int) : DBState :=
  { st with users := st.users ++ [⟨chat_id, user_id, email⟩] }

/-- Model of `Database.remove`: `DELETE FROM users WHERE chat_id = ? AND user_id = ?`. -/
def remove (st : DBState) (chat_id user_id : Int) : DBState :=
  { st with users :=
      st.users.filter (fun r => !(r.chat_id == chat_id && r.user_id == user_id)) }

/-- Model of `Database.get_users_by_chat_id`: the `(user_id, email)` pairs of the rows
with the given `chat_id`.  The source builds a dict keyed by `str(user_id)`;
the `(chat_id, user_id)` primary key makes the dict and the row list carry
the same pairs. -/
def get_users_by_chat_id (st : DBState) (chat_id : Int) : List (Int × String) :=
  (st.users.filter (fun r => r.chat_id == chat_id)).map (fun r => (r.user_id, r.email))

/-- Model of `Database.add_scheduled_message`: insert one row into `scheduled_messages`. -/
def add_scheduled_message (st : DBState) (user_id : Int) (message : String)
    (send_time : Int) : DBState :=
  { st with sched := st.sched ++ [⟨user_id, message, send_time⟩] }

/-- Model of `Database.get_scheduled_messages`: all rows of `scheduled_messages`. -/
def get_scheduled_messages (st : DBState) : List SchedMsg :=
  st.sched

/-- Model of `Database.remove_scheduled_message`:
`DELETE FROM scheduled_messages WHERE user_id = ? AND send_time = ?`. -/
def remove_scheduled_message (st : DBState) (user_id : Int) (send_time : Int) : DBState :=
  { st with sched :=
      st.sched.filter (fun m => !(m.user_id == user_id && m.send_time == send_time)) }

end Database

/-- One entry of `config.CHAT_IDS_GROUPS`: the chats of a course group and
the GetCourse group ids granting access to them. -/
structure GroupData where
  chat_ids : List Int
  gc_group_ids : List Int
deriving DecidableEq, Repr

/-- Model of `config.CHAT_IDS_GROUPS` as an association list in dict iteration order. -/
abbrev ChatIdsGroups := List (String × GroupData)

/-- Model of `config.MESSAGES`: message texts abstracted by their config key. -/
def MESSAGES (key : String) : String := key

/-- Model of `GetCourseClient.get_user_group_ids_by_email`: raises `ValueError` on an
empty email (`if not email`), otherwise defers to the API transport, which
may itself fail (`Except.error`), report an absent user (`Except.ok none`)
or return the user's group-id list. -/
def get_user_group_ids_by_email (api : String → Except Unit (Option (List String)))
    (email : String) : Except Unit (Option (List String)) :=
  if email = "" then Except.error () else api email

/-- Model of `GetCourseClient.get_group_emails`: raises `ValueError` when
`group_id <= 0`, otherwise defers to the API transport; `none` stands for any
exception escaping the call. -/
def get_group_emails (api : Int → Option (List String)) (group_id : Int) :
    Option (List String) :=
  if group_id ≤ 0 then none else api group_id

/-- Model of `catch_email`: the value a user message resolves the waiting future to,
`message.text.strip()`. -/
def catch_email (text : String) : String := text.trim

/-- Model of `wait_for_email`: the slot for `user_id` is created in `email_futures`
and popped again in the `finally` block, so afterwards the table holds the
other users' slots only; the call returns the stripped message text, or `""`
on timeout (`arrival = none`). -/
def wait_for_email (futures : List Int) (user_id : Int) (arrival : Option String) :
    String × List Int :=
  ((arrival.map catch_email).getD "", (user_id :: futures).filter (fun u => !(u == user_id)))

/-- Environment of one join-request flow: whether the greeting is delivered,
which message (if any) arrives within the timeout of each attempt, the
GetCourse transport, and whether `approve_chat_join_request` /
the success-message send raise `TelegramAPIError` on each attempt. -/
structure JoinEnv where
  helloOk : Bool
  arrival : Nat → Option String
  gcApi : String → Except Unit (Option (List String))
  approveOk : Nat → Bool
  sendAccessOk : Nat → Bool

/-- Externally visible platform actions performed by the bot. -/
inductive Act where
  | sentHello
  | sentTry2
  | sentDuplicate
  | sentNoAccess
  | sentAccess (user_id : Int)
  | approvedReq (chat_id user_id : Int)
  | declinedReq (chat_id user_id : Int)
  | banned (chat_id user_id : Int)
  | unbanned (chat_id user_id : Int)
deriving DecidableEq, Repr

/-- The `for group_name, group_data in config.CHAT_IDS_GROUPS.items()`
search in `check_and_add_user`: gc group ids of the first group whose
`chat_ids` contains the chat, `none` for the loop's `else` branch. -/
def findAllowedGroups (cfg : ChatIdsGroups) (chat_id : Int) : Option (List Int) :=
  (cfg.find? (fun p => p.2.chat_ids.contains chat_id)).map (fun p => p.2.gc_group_ids)

/-- Result of `check_and_add_user`: the returned boolean, the database
afterwards, and the platform actions performed. -/
structure CAUResult where
  ok : Bool
  st : DBState
  acts : List Act
deriving Repr

/-- Model of `check_and_add_user`.  Lookup failure or an absent/empty group list fails
the attempt; a chat absent from `CHAT_IDS_GROUPS` fails the attempt; with a
non-empty intersection the source approves, sends the success message and
inserts the record inside one `try`, returning `False` if
`approve_chat_join_request` raises (nothing done) or if the success send
raises (approval done, no insert). -/
def check_and_add_user (env : JoinEnv) (attempt : Nat) (cfg : ChatIdsGroups)
    (st : DBState) (chat_id user_id : Int) (email : String) : CAUResult :=
  match get_user_group_ids_by_email env.gcApi email with
  | Except.error _ => ⟨false, st, []⟩
  | Except.ok none => ⟨false, st, []⟩
  | Except.ok (some group_ids) =>
    if group_ids.isEmpty then ⟨false, st, []⟩
    else
      match findAllowedGroups cfg chat_id with
      | none => ⟨false, st, []⟩
      | some allowed_groups =>
        if allowed_groups.any (fun g => group_ids.contains (toString g)) then
          if env.approveOk attempt then
            if env.sendAccessOk attempt then
              ⟨true, Database.add st user_id email chat_id,
                [Act.approvedReq chat_id user_id, Act.sentAccess user_id]⟩
            else
              ⟨false, st, [Act.approvedReq chat_id user_id]⟩
          else ⟨false, st, []⟩
        else ⟨false, st, []⟩

/-- Terminal status of a join-request flow. -/
inductive Outcome where
  | noGreeting
  | declinedDuplicate
  | approved
  | declinedNoAccess
deriving DecidableEq, Repr

/-- Result of `handle_join_request`: outcome, database afterwards, action
trace, number of validation attempts consumed, and the email supplied at
each consumed attempt (in order). -/
structure JoinResult where
  outcome : Outcome
  st : DBState
  acts : List Act
  attemptsUsed : Nat
  attemptEmails : List String
deriving Repr

/-- The `for attempt in range(2)` loop of `handle_join_request`, over the
list of remaining attempt indices.  Per iteration: wait for an email,
decline on a duplicate, return on approval, otherwise prompt `try2` after
the first attempt; the empty list is the code after the loop (decline plus
the final no-access message). -/
def joinLoop (env : JoinEnv) (cfg : ChatIdsGroups) (chat_id user_id : Int) :
    List Nat → DBState → JoinResult
  | [], st =>
    ⟨Outcome.declinedNoAccess, st,
      [Act.declinedReq chat_id user_id, Act.sentNoAccess], 0, []⟩
  | attempt :: rest, st =>
    let email := (wait_for_email [] user_id (env.arrival attempt)).1
    if Database.is_duplicate st email then
      ⟨Outcome.declinedDuplicate, st,
        [Act.declinedReq chat_id user_id, Act.sentDuplicate], 1, [email]⟩
    else
      let r := check_and_add_user env attempt cfg st chat_id user_id email
      if r.ok then
        ⟨Outcome.approved, r.st, r.acts, 1, [email]⟩
      else
        let promptActs := if attempt == 0 then [Act.sentTry2] else []
        let cont := joinLoop env cfg chat_id user_id rest r.st
        ⟨cont.outcome, cont.st, r.acts ++ promptActs ++ cont.acts,
          cont.attemptsUsed + 1, email :: cont.attemptEmails⟩

/-- Model of `handle_join_request`: send the greeting; if that raises, abort with no
further action; otherwise run the two-attempt loop. -/
def handle_join_request (env : JoinEnv) (cfg : ChatIdsGroups) (chat_id user_id : Int)
    (st : DBState) : JoinResult :=
  if env.helloOk then
    let r := joinLoop env cfg chat_id user_id [0, 1] st
    { r with acts := Act.sentHello :: r.acts }
  else
    ⟨Outcome.noGreeting, st, [], 0, []⟩

/-- Environment of a reconciliation run: the GetCourse transport for
`get_group_emails` and whether `ban_chat_member` / `unban_chat_member`
raise `TelegramAPIError` for a given `(chat_id, user_id)`. -/
structure ReconEnv where
  fetchEmails : Int → Option (List String)
  banOk : Int → Int → Bool
  unbanOk : Int → Int → Bool

/-- The email-collection loop of `check_all_chats`: extend with each
group's emails, skipping (`except ... continue`-free inner `except`) any
group id whose fetch fails, then `list(set(emails))`.  `List.dedup` keeps
first occurrences; only membership in the set is observable downstream. -/
def collectGroupEmails (env : ReconEnv) (gc_group_ids : List Int) : List String :=
  ((gc_group_ids.map (fun gid => (get_group_emails env.fetchEmails gid).getD [])).join).dedup

/-- State threaded through the reconciliation loops: database, the running
`offset_seconds`, the notifications enqueued so far (in order) and the
platform action trace. -/
structure ReconStep where
  st : DBState
  off : Int
  enq : List SchedMsg
  acts : List Act
deriving Repr

/-- One member inside the revocation loop of `check_all_chats`.  A member
whose email is entitled is untouched.  Otherwise: `ban_chat_member` raising
leaves everything unchanged; `unban_chat_member` raising leaves the record
and the offset unchanged with the ban already performed; on success the
record is deleted, the notification is enqueued at `base + offset_seconds`
and `offset_seconds += 1`. -/
def processMember (env : ReconEnv) (emails : List String) (base : Int) (chat_id : Int)
    (st : DBState) (off : Int) (user_id : Int) (email : String) : ReconStep :=
  if email ∈ emails then ⟨st, off, [], []⟩
  else if !env.banOk chat_id user_id then ⟨st, off, [], []⟩
  else if !env.unbanOk chat_id user_id then ⟨st, off, [], [Act.banned chat_id user_id]⟩
  else
    let st1 := Database.remove st chat_id user_id
    let t := base + off
    let st2 := Database.add_scheduled_message st1 user_id (MESSAGES "is_end_access") t
    ⟨st2, off + 1, [⟨user_id, MESSAGES "is_end_access", t⟩],
      [Act.banned chat_id user_id, Act.unbanned chat_id user_id]⟩

/-- The `for user_id_str, email in list(chat_users.items())` loop over one
chat's member snapshot. -/
def processMembers (env : ReconEnv) (emails : List String) (base : Int) (chat_id : Int) :
    List (Int × String) → DBState → Int → ReconStep
  | [], st, off => ⟨st, off, [], []⟩
  | (user_id, email) :: rest, st, off =>
    let s1 := processMember env emails base chat_id st off user_id email
    let s2 := processMembers env emails base chat_id rest s1.st s1.off
    ⟨s2.st, s2.off, s1.enq ++ s2.enq, s1.acts ++ s2.acts⟩

/-- The `for chat_id in chat_ids` loop of `check_all_chats`: each chat's
member snapshot is read from the current database and processed, threading
the database and `offset_seconds` through. -/
def processChats (env : ReconEnv) (emails : List String) (base : Int) :
    List Int → DBState → Int → ReconStep
  | [], st, off => ⟨st, off, [], []⟩
  | chat_id :: rest, st, off =>
    let s1 := processMembers env emails base chat_id
      (Database.get_users_by_chat_id st chat_id) st off
    let s2 := processChats env emails base rest s1.st s1.off
    ⟨s2.st, s2.off, s1.enq ++ s2.enq, s1.acts ++ s2.acts⟩

/-- One group iteration of `check_all_chats`: collect the entitled emails,
then process every chat of the group with `offset_seconds` starting at `0`
(the source re-initialises `offset_seconds = 0` inside the group loop,
access_bot.py line 250). -/
def processGroup (env : ReconEnv) (base : Int) (st : DBState) (g : GroupData) : ReconStep :=
  processChats env (collectGroupEmails env g.gc_group_ids) base g.chat_ids st 0

/-- Model of `check_all_chats`: iterate the groups of `CHAT_IDS_GROUPS`.
`base` is `base_send_time` (the same calendar value is recomputed per group
in the source).  Returns the database, the notifications enqueued by the
whole run in order, and the action trace. -/
def check_all_chats (env : ReconEnv) (base : Int) :
    ChatIdsGroups → DBState → DBState × List SchedMsg × List Act
  | [], st => (st, [], [])
  | (_, g) :: rest, st =>
    let s1 := processGroup env base st g
    let s2 := check_all_chats env base rest s1.st
    (s2.1, s1.enq ++ s2.2.1, s1.acts ++ s2.2.2)

/-- Model of `send_delayed_message`: send, then remove the row; if the send raises
`TelegramAPIError` (`ok = false`) the row is left in place.  Returns whether
the message was delivered and the database afterwards. -/
def send_delayed_message (ok : Bool) (st : DBState) (user_id : Int) (message : String)
    (send_time : Int) : Bool × DBState :=
  if ok then (true, Database.remove_scheduled_message st user_id send_time)
  else (false, st)

/-- The `for msg in messages` body of one dispatcher poll, over the snapshot
taken by `get_scheduled_messages`: each snapshot entry within the
5-time-unit window of `now` is sent via `send_delayed_message`.  Returns the
messages actually delivered (in order) and the database afterwards. -/
def deliverLoop (ok : SchedMsg → Bool) (now : Int) :
    List SchedMsg → DBState → List SchedMsg × DBState
  | [], st => ([], st)
  | m :: rest, st =>
    if (now - m.send_time).natAbs ≤ 5 then
      let r := send_delayed_message (ok m) st m.user_id m.message m.send_time
      let c := deliverLoop ok now rest r.2
      (if r.1 then m :: c.1 else c.1, c.2)
    else deliverLoop ok now rest st

/-- One iteration of the `while True` loop of `process_scheduled_messages`:
snapshot the queue, deliver what falls inside the tolerance window. -/
def process_scheduled_messages_once (ok : SchedMsg → Bool) (now : Int) (st : DBState) :
    List SchedMsg × DBState :=
  deliverLoop ok now (Database.get_scheduled_messages st) st

/-- A sequence of dispatcher polls, each with its own clock value and send
outcomes; returns the per-poll delivered lists and the final database. -/
def runPolls : List (Int × (SchedMsg → Bool)) → DBState → List (List SchedMsg) × DBState
  | [], st => ([], st)
  | (now, ok) :: rest, st =>
    let r := process_scheduled_messages_once ok now st
    let c := runPolls rest r.2
    (r.1 :: c.1, c.2)

/-- Email uniqueness invariant of the Membership Store: no two `users` rows
share an email. -/
def EmailsUnique (st : DBState) : Prop :=
  (st.users.map (fun r => r.email)).Nodup

/-- The integer sequence `t, t+1, ..., t+n-1`. -/
def consecFrom (t : Int) : Nat → List Int
  | 0 => []
  | n + 1 => t :: consecFrom (t + 1) n

theorem is_duplicate_eq_true_iff (st : DBState) (e : String) :
    Database.is_duplicate st e = true ↔ e ∈ st.users.map (fun r => r.email) := by
  rw [Database.is_duplicate, List.any_eq_true]
  simp only [List.mem_map, beq_iff_eq]

theorem is_duplicate_eq_false_iff (st : DBState) (e : String) :
    Database.is_duplicate st e = false ↔ e ∉ st.users.map (fun r => r.email) := by
  rw [← is_duplicate_eq_true_iff st e, Bool.eq_false_iff]

theorem check_and_add_user_cases (env : JoinEnv) (attempt : Nat) (cfg : ChatIdsGroups)
    (st : DBState) (chat_id user_id : Int) (email : String) :
    check_and_add_user env attempt cfg st chat_id user_id email =
        ⟨true, Database.add st user_id email chat_id,
          [Act.approvedReq chat_id user_id, Act.sentAccess user_id]⟩ ∨
      ((check_and_add_user env attempt cfg st chat_id user_id email).ok = false ∧
       (check_and_add_user env attempt cfg st chat_id user_id email).st = st ∧
       ((check_and_add_user env attempt cfg st chat_id user_id email).acts = [] ∨
        (check_and_add_user env attempt cfg st chat_id user_id email).acts =
          [Act.approvedReq chat_id user_id])) := by
  unfold check_and_add_user
  split
  · right; simp
  · right; simp
  · split
    · right; simp
    · split
      · right; simp
      · split
        · split
          · split
            · left; rfl
            · right; simp
          · right; simp
        · right; simp

theorem cau_st_eq_of_not_ok (env : JoinEnv) (attempt : Nat) (cfg : ChatIdsGroups)
    (st : DBState) (chat_id user_id : Int) (email : String)
    (h : (check_and_add_user env attempt cfg st chat_id user_id email).ok = false) :
    (check_and_add_user env attempt cfg st chat_id user_id email).st = st := by
  rcases check_and_add_user_cases env attempt cfg st chat_id user_id email with hc | hc
  · rw [hc] at h; simp at h
  · exact hc.2.1

theorem cau_st_eq_of_ok (env : JoinEnv) (attempt : Nat) (cfg : ChatIdsGroups)
    (st : DBState) (chat_id user_id : Int) (email : String)
    (h : (check_and_add_user env attempt cfg st chat_id user_id email).ok = true) :
    (check_and_add_user env attempt cfg st chat_id user_id email).st =
      Database.add st user_id email chat_id := by
  rcases check_and_add_user_cases env attempt cfg st chat_id user_id email with hc | hc
  · rw [hc]
  · rw [hc.1] at h; simp at h

theorem cau_sentTry2_not_mem (env : JoinEnv) (attempt : Nat) (cfg : ChatIdsGroups)
    (st : DBState) (chat_id user_id : Int) (email : String) :
    Act.sentTry2 ∉ (check_and_add_user env attempt cfg st chat_id user_id email).acts := by
  rcases check_and_add_user_cases env attempt cfg st chat_id user_id email with hc | hc
  · rw [hc]; simp
  · rcases hc.2.2 with ha | ha <;> rw [ha] <;> simp

theorem cau_sentHello_not_mem (env : JoinEnv) (attempt : Nat) (cfg : ChatIdsGroups)
    (st : DBState) (chat_id user_id : Int) (email : String) :
    Act.sentHello ∉ (check_and_add_user env attempt cfg st chat_id user_id email).acts := by
  rcases check_and_add_user_cases env attempt cfg st chat_id user_id email with hc | hc
  · rw [hc]; simp
  · rcases hc.2.2 with ha | ha <;> rw [ha] <;> simp

theorem check_and_add_user_empty_email (env : JoinEnv) (attempt : Nat)
    (cfg : ChatIdsGroups) (st : DBState) (chat_id user_id : Int) :
    check_and_add_user env attempt cfg st chat_id user_id "" = ⟨false, st, []⟩ := by
  simp [check_and_add_user, get_user_group_ids_by_email]

theorem wait_for_email_timeout (futures : List Int) (user_id : Int) :
    wait_for_email futures user_id none =
      ("", futures.filter (fun u => !(u == user_id))) := by
  simp [wait_for_email, List.filter_cons]

theorem wait_for_email_slot_cleared (futures : List Int) (user_id : Int)
    (arrival : Option String) :
    user_id ∉ (wait_for_email futures user_id arrival).2 := by
  simp [wait_for_email, List.mem_filter]

theorem joinLoop_attempts_le (env : JoinEnv) (cfg : ChatIdsGroups) (chat_id user_id : Int) :
    ∀ (l : List Nat) (st : DBState),
      (joinLoop env cfg chat_id user_id l st).attemptsUsed ≤ l.length
  | [], _ => by simp [joinLoop]
  | a :: rest, st => by
    have ih := joinLoop_attempts_le env cfg chat_id user_id rest
    simp only [joinLoop]
    split
    · simp
    · split
      · simp
      · simpa using Nat.succ_le_succ (ih _)

theorem joinLoop_one_le (env : JoinEnv) (cfg : ChatIdsGroups) (chat_id user_id : Int)
    (a : Nat) (l : List Nat) (st : DBState) :
    1 ≤ (joinLoop env cfg chat_id user_id (a :: l) st).attemptsUsed := by
  simp only [joinLoop]
  split
  · simp
  · split
    · simp
    · simp

theorem joinLoop_outcome_cases (env : JoinEnv) (cfg : ChatIdsGroups) (chat_id user_id : Int) :
    ∀ (l : List Nat) (st : DBState),
      (joinLoop env cfg chat_id user_id l st).outcome = Outcome.approved ∨
      (joinLoop env cfg chat_id user_id l st).outcome = Outcome.declinedDuplicate ∨
      (joinLoop env cfg chat_id user_id l st).outcome = Outcome.declinedNoAccess
  | [], _ => by simp [joinLoop]
  | a :: rest, st => by
    have ih := joinLoop_outcome_cases env cfg chat_id user_id rest
    simp only [joinLoop]
    split
    · simp
    · split
      · simp
      · simpa using ih _

theorem joinLoop_noAccess_attempts (env : JoinEnv) (cfg : ChatIdsGroups)
    (chat_id user_id : Int) :
    ∀ (l : List Nat) (st : DBState),
      (joinLoop env cfg chat_id user_id l st).outcome = Outcome.declinedNoAccess →
      (joinLoop env cfg chat_id user_id l st).attemptsUsed = l.length
  | [], _ => by simp [joinLoop]
  | a :: rest, st => by
    have ih := joinLoop_noAccess_attempts env cfg chat_id user_id rest
    simp only [joinLoop]
    split
    · simp
    · split
      · simp
      · intro h
        simp only [List.length_cons]
        simpa using ih _ (by simpa using h)

theorem joinLoop_st_of_not_approved (env : JoinEnv) (cfg : ChatIdsGroups)
    (chat_id user_id : Int) :
    ∀ (l : List Nat) (st : DBState),
      (joinLoop env cfg chat_id user_id l st).outcome ≠ Outcome.approved →
      (joinLoop env cfg chat_id user_id l st).st = st
  | [], _ => by simp [joinLoop]
  | a :: rest, st => by
    have ih := joinLoop_st_of_not_approved env cfg chat_id user_id rest
    simp only [joinLoop]
    split
    · simp
    · split
      · simp_all
      · intro h
        rename_i hok
        have hst := cau_st_eq_of_not_ok env a cfg st chat_id user_id _
          (by simpa using hok)
        simp only [hst] at h ⊢
        exact ih st (by simpa using h)

theorem joinLoop_st_of_approved (env : JoinEnv) (cfg : ChatIdsGroups)
    (chat_id user_id : Int) :
    ∀ (l : List Nat) (st : DBState),
      (joinLoop env cfg chat_id user_id l st).outcome = Outcome.approved →
      ∃ e, Database.is_duplicate st e = false ∧
        (joinLoop env cfg chat_id user_id l st).st = Database.add st user_id e chat_id
  | [], _ => by simp [joinLoop]
  | a :: rest, st => by
    have ih := joinLoop_st_of_approved env cfg chat_id user_id rest
    simp only [joinLoop]
    split
    · simp
    · split
      · rename_i hdup hok
        intro _
        refine ⟨(wait_for_email [] user_id (env.arrival a)).1, by simpa using hdup, ?_⟩
        simpa using cau_st_eq_of_ok env a cfg st chat_id user_id _ (by simpa using hok)
      · rename_i hdup hok
        intro h
        have hst := cau_st_eq_of_not_ok env a cfg st chat_id user_id _
          (by simpa using hok)
        simp only [hst] at h ⊢
        exact ih st (by simpa using h)

theorem joinLoop_duplicate (env : JoinEnv) (cfg : ChatIdsGroups)
    (chat_id user_id : Int) :
    ∀ (l : List Nat) (st : DBState) (e : String),
      e ∈ (joinLoop env cfg chat_id user_id l st).attemptEmails →
      Database.is_duplicate st e = true →
      (joinLoop env cfg chat_id user_id l st).outcome = Outcome.declinedDuplicate ∧
      (joinLoop env cfg chat_id user_id l st).st = st ∧
      Act.declinedReq chat_id user_id ∈ (joinLoop env cfg chat_id user_id l st).acts
  | [], _, _ => by simp [joinLoop]
  | a :: rest, st, e => by
    have ih := joinLoop_duplicate env cfg chat_id user_id rest
    simp only [joinLoop]
    split
    · intro hmem hdup
      simp at hmem
      simp [hmem]
    · split
      · intro hmem hdup
        rename_i hndup hok
        simp at hmem
        rw [hmem] at hdup
        simp [hdup] at hndup
      · intro hmem hdup
        rename_i hndup hok
        have hst := cau_st_eq_of_not_ok env a cfg st chat_id user_id _
          (by simpa using hok)
        simp only [hst] at hmem ⊢
        simp only [List.mem_cons] at hmem
        rcases hmem with rfl | hmem
        · rw [hdup] at hndup; simp at hndup
        · have := ih st e (by simpa using hmem) hdup
          refine ⟨by simpa using this.1, by simpa using this.2.1, ?_⟩
          simp only [List.mem_append]
          right
          exact this.2.2

theorem joinLoop_noAccess_acts (env : JoinEnv) (cfg : ChatIdsGroups)
    (chat_id user_id : Int) :
    ∀ (l : List Nat) (st : DBState),
      (joinLoop env cfg chat_id user_id l st).outcome = Outcome.declinedNoAccess →
      Act.declinedReq chat_id user_id ∈ (joinLoop env cfg chat_id user_id l st).acts ∧
      Act.sentNoAccess ∈ (joinLoop env cfg chat_id user_id l st).acts
  | [], _ => by simp [joinLoop]
  | a :: rest, st => by
    have ih := joinLoop_noAccess_acts env cfg chat_id user_id rest
    simp only [joinLoop]
    split
    · simp
    · split
      · simp
      · intro h
        have := ih _ (by simpa using h)
        constructor
        · simp only [List.mem_append]; right; exact this.1
        · simp only [List.mem_append]; right; exact this.2

theorem joinLoop_sentHello_not_mem (env : JoinEnv) (cfg : ChatIdsGroups)
    (chat_id user_id : Int) :
    ∀ (l : List Nat) (st : DBState),
      Act.sentHello ∉ (joinLoop env cfg chat_id user_id l st).acts
  | [], _ => by simp [joinLoop]
  | a :: rest, st => by
    have ih := joinLoop_sentHello_not_mem env cfg chat_id user_id rest
    simp only [joinLoop]
    split
    · simp
    · split
      · simpa using cau_sentHello_not_mem env a cfg st chat_id user_id _
      · simp only [List.mem_append]
        intro hmem
        rcases hmem with (hmem | hmem) | hmem
        · exact cau_sentHello_not_mem env a cfg st chat_id user_id _ hmem
        · revert hmem
          split <;> simp
        · exact ih _ hmem

theorem joinLoop_try2_count (env : JoinEnv) (cfg : ChatIdsGroups) (chat_id user_id : Int) :
    ∀ (l : List Nat) (st : DBState),
      (joinLoop env cfg chat_id user_id l st).acts.count Act.sentTry2 =
        (l.take
          (if (joinLoop env cfg chat_id user_id l st).outcome = Outcome.declinedNoAccess
            then (joinLoop env cfg chat_id user_id l st).attemptsUsed
            else (joinLoop env cfg chat_id user_id l st).attemptsUsed - 1)).count 0
  | [], _ => by simp [joinLoop]
  | a :: rest, st => by
    have ih := joinLoop_try2_count env cfg chat_id user_id rest
    simp only [joinLoop]
    split
    · simp [List.count_cons]
    · split
      · have h0 := List.count_eq_zero.mpr (cau_sentTry2_not_mem env a cfg st chat_id user_id
          ((wait_for_email [] user_id (env.arrival a)).1))
        simpa using h0
      · rename_i hdup hok
        have hst := cau_st_eq_of_not_ok env a cfg st chat_id user_id _ (by simpa using hok)
        have h0 := List.count_eq_zero.mpr (cau_sentTry2_not_mem env a cfg st chat_id user_id
          ((wait_for_email [] user_id (env.arrival a)).1))
        simp only [hst, List.count_append, h0, Nat.zero_add]
        have ihst := ih st
        by_cases hno :
            (joinLoop env cfg chat_id user_id rest st).outcome = Outcome.declinedNoAccess
        · rw [if_pos hno] at ihst
          rw [if_pos hno, List.take_succ_cons, List.count_cons, ihst]
          by_cases hab : a = 0 <;> simp [hab] <;> omega
        · have hne : rest ≠ [] := by
            intro hr
            rw [hr] at hno
            simp [joinLoop] at hno
          obtain ⟨b, rest', rfl⟩ : ∃ b rest', rest = b :: rest' :=
            List.exists_cons_of_ne_nil hne
          have h1 := joinLoop_one_le env cfg chat_id user_id b rest' st
          obtain ⟨k, hk⟩ : ∃ k,
              (joinLoop env cfg chat_id user_id (b :: rest') st).attemptsUsed = k + 1 :=
            ⟨(joinLoop env cfg chat_id user_id (b :: rest') st).attemptsUsed - 1, by omega⟩
          rw [if_neg hno, hk] at ihst
          rw [if_neg hno, hk]
          simp only [Nat.add_sub_cancel] at ihst ⊢
          rw [List.take_succ_cons, List.count_cons, ihst]
          by_cases hab : a = 0 <;> simp [hab] <;> omega

theorem consecFrom_append (t : Int) (m n : Nat) :
    consecFrom t (m + n) = consecFrom t m ++ consecFrom (t + (m : Int)) n := by
  induction m generalizing t with
  | zero => simp [consecFrom]
  | succ k ih =>
    have harith : k + 1 + n = (k + n) + 1 := by omega
    rw [harith]
    simp only [consecFrom, ih (t + 1), List.cons_append]
    congr 2
    push_cast
    ring

theorem consecFrom_chain (t : Int) (n : Nat) :
    List.Chain' (fun a b => a < b) (consecFrom t n) := by
  induction n generalizing t with
  | zero => simp [consecFrom]
  | succ k ih =>
    cases k with
    | zero => simp [consecFrom]
    | succ k' =>
      simp only [consecFrom]
      rw [List.chain'_cons]
      refine ⟨by omega, ?_⟩
      simpa [consecFrom] using ih (t + 1)

theorem processMembers_enq (env : ReconEnv) (emails : List String) (base : Int)
    (chat_id : Int) :
    ∀ (l : List (Int × String)) (st : DBState) (off : Int),
      (processMembers env emails base chat_id l st off).enq.map (fun m => m.send_time) =
        consecFrom (base + off)
          (processMembers env emails base chat_id l st off).enq.length ∧
      (processMembers env emails base chat_id l st off).off =
        off + (processMembers env emails base chat_id l st off).enq.length
  | [], st, off => by simp [processMembers, consecFrom]
  | (user_id, email) :: rest, st, off => by
    have ih := processMembers_enq env emails base chat_id rest
    simp only [processMembers]
    by_cases h1 : email ∈ emails
    · simp only [processMember, if_pos h1]
      simpa using ih st off
    · by_cases h2 : env.banOk chat_id user_id = true
      · by_cases h3 : env.unbanOk chat_id user_id = true
        · simp only [processMember, if_neg h1, h2, h3, Bool.not_true, Bool.false_eq_true,
            if_false]
          have ihs := ih (Database.add_scheduled_message
            (Database.remove st chat_id user_id) user_id (MESSAGES "is_end_access")
            (base + off)) (off + 1)
          have harr : base + (off + 1) = base + off + 1 := by ring
          rw [harr] at ihs
          simp only [List.singleton_append, List.map_cons, List.length_cons, ihs.1,
            consecFrom]
          refine ⟨rfl, ?_⟩
          rw [ihs.2]
          push_cast
          ring
        · simp only [processMember, if_neg h1, h2, h3, Bool.not_true, Bool.not_false,
            Bool.false_eq_true, if_false, if_true]
          simpa using ih st off
      · simp only [processMember, if_neg h1, h2, Bool.not_false, if_true]
        simpa using ih st off

theorem processChats_enq (env : ReconEnv) (emails : List String) (base : Int) :
    ∀ (l : List Int) (st : DBState) (off : Int),
      (processChats env emails base l st off).enq.map (fun m => m.send_time) =
        consecFrom (base + off) (processChats env emails base l st off).enq.length ∧
      (processChats env emails base l st off).off =
        off + (processChats env emails base l st off).enq.length
  | [], st, off => by simp [processChats, consecFrom]
  | chat_id :: rest, st, off => by
    have h1 := processMembers_enq env emails base chat_id
      (Database.get_users_by_chat_id st chat_id) st off
    have ih := processChats_enq env emails base rest
      (processMembers env emails base chat_id
        (Database.get_users_by_chat_id st chat_id) st off).st
      (processMembers env emails base chat_id
        (Database.get_users_by_chat_id st chat_id) st off).off
    simp only [processChats]
    simp only [List.map_append, List.length_append, h1.1]
    rw [h1.2] at ih ⊢
    have harr : base + (off +
        ((processMembers env emails base chat_id
          (Database.get_users_by_chat_id st chat_id) st off).enq.length : Int)) =
        (base + off) +
        ((processMembers env emails base chat_id
          (Database.get_users_by_chat_id st chat_id) st off).enq.length : Int) := by
      ring
    rw [harr] at ih
    rw [ih.1, ← consecFrom_append]
    refine ⟨rfl, ?_⟩
    rw [ih.2]
    push_cast
    ring

theorem processMember_users_sublist (env : ReconEnv) (emails : List String) (base : Int)
    (chat_id : Int) (st : DBState) (off : Int) (user_id : Int) (email : String) :
    (processMember env emails base chat_id st off user_id email).st.users.Sublist
      st.users := by
  unfold processMember
  split
  · exact List.Sublist.refl _
  · split
    · exact List.Sublist.refl _
    · split
      · exact List.Sublist.refl _
      · simp only [Database.add_scheduled_message, Database.remove]
        exact List.filter_sublist _

theorem processMembers_users_sublist (env : ReconEnv) (emails : List String) (base : Int)
    (chat_id : Int) :
    ∀ (l : List (Int × String)) (st : DBState) (off : Int),
      (processMembers env emails base chat_id l st off).st.users.Sublist st.users
  | [], st, off => by simp [processMembers]
  | (user_id, email) :: rest, st, off => by
    have h1 := processMember_users_sublist env emails base chat_id st off user_id email
    have ih := processMembers_users_sublist env emails base chat_id rest
      (processMember env emails base chat_id st off user_id email).st
      (processMember env emails base chat_id st off user_id email).off
    simp only [processMembers]
    exact ih.trans h1

theorem processChats_users_sublist (env : ReconEnv) (emails : List String) (base : Int) :
    ∀ (l : List Int) (st : DBState) (off : Int),
      (processChats env emails base l st off).st.users.Sublist st.users
  | [], st, off => by simp [processChats]
  | chat_id :: rest, st, off => by
    have h1 := processMembers_users_sublist env emails base chat_id
      (Database.get_users_by_chat_id st chat_id) st off
    have ih := processChats_users_sublist env emails base rest
      (processMembers env emails base chat_id
        (Database.get_users_by_chat_id st chat_id) st off).st
      (processMembers env emails base chat_id
        (Database.get_users_by_chat_id st chat_id) st off).off
    simp only [processChats]
    exact ih.trans h1

theorem check_all_chats_users_sublist (env : ReconEnv) (base : Int) :
    ∀ (cfg : ChatIdsGroups) (st : DBState),
      (check_all_chats env base cfg st).1.users.Sublist st.users
  | [], st => by simp [check_all_chats]
  | (name, g) :: rest, st => by
    have h1 : (processGroup env base st g).st.users.Sublist st.users :=
      processChats_users_sublist env (collectGroupEmails env g.gc_group_ids) base
        g.chat_ids st 0
    have ih := check_all_chats_users_sublist env base rest (processGroup env base st g).st
    simp only [check_all_chats]
    exact ih.trans h1

theorem remove_scheduled_key_not_mem (st : DBState) (user_id send_time : Int)
    (m : SchedMsg) (hu : m.user_id = user_id) (ht : m.send_time = send_time) :
    m ∉ (Database.remove_scheduled_message st user_id send_time).sched := by
  simp [Database.remove_scheduled_message, List.mem_filter, hu, ht]

theorem remove_scheduled_mem (st : DBState) (user_id send_time : Int) (m : SchedMsg) :
    m ∈ (Database.remove_scheduled_message st user_id send_time).sched ↔
      m ∈ st.sched ∧ ¬(m.user_id = user_id ∧ m.send_time = send_time) := by
  simp only [Database.remove_scheduled_message, List.mem_filter]
  constructor
  · rintro ⟨h1, h2⟩
    refine ⟨h1, ?_⟩
    rintro ⟨hu, ht⟩
    simp [hu, ht] at h2
  · rintro ⟨h1, h2⟩
    refine ⟨h1, ?_⟩
    by_cases hu : m.user_id = user_id
    · have ht : ¬ m.send_time = send_time := fun ht => h2 ⟨hu, ht⟩
      simp [hu, ht]
    · simp [hu]

theorem deliverLoop_delivered_mem (ok : SchedMsg → Bool) (now : Int) :
    ∀ (s : List SchedMsg) (st : DBState) (m : SchedMsg),
      m ∈ (deliverLoop ok now s st).1 →
      (now - m.send_time).natAbs ≤ 5 ∧ m ∈ s ∧ ok m = true
  | [], st, m => by simp [deliverLoop]
  | h :: rest, st, m => by
    have ih := deliverLoop_delivered_mem ok now rest
    simp only [deliverLoop]
    by_cases hw : (now - h.send_time).natAbs ≤ 5
    · rw [if_pos hw]
      by_cases hok : ok h = true
      · simp only [send_delayed_message, if_pos hok, eq_self_iff_true, if_true]
        intro hm
        simp only [List.mem_cons] at hm
        rcases hm with rfl | hm
        · exact ⟨hw, List.mem_cons_self _ _, hok⟩
        · have := ih _ _ hm
          exact ⟨this.1, List.mem_cons_of_mem _ this.2.1, this.2.2⟩
      · simp only [send_delayed_message, if_neg hok]
        intro hm
        have := ih _ _ hm
        exact ⟨this.1, List.mem_cons_of_mem _ this.2.1, this.2.2⟩
    · rw [if_neg hw]
      intro hm
      have := ih _ _ hm
      exact ⟨this.1, List.mem_cons_of_mem _ this.2.1, this.2.2⟩

theorem deliverLoop_sched_sub (ok : SchedMsg → Bool) (now : Int) :
    ∀ (s : List SchedMsg) (st : DBState) (x : SchedMsg),
      x ∈ (deliverLoop ok now s st).2.sched → x ∈ st.sched
  | [], st, x => by simp [deliverLoop]
  | h :: rest, st, x => by
    have ih := deliverLoop_sched_sub ok now rest
    simp only [deliverLoop]
    by_cases hw : (now - h.send_time).natAbs ≤ 5
    · rw [if_pos hw]
      by_cases hok : ok h = true
      · simp only [send_delayed_message, if_pos hok]
        intro hx
        have := ih _ _ hx
        exact ((remove_scheduled_mem st h.user_id h.send_time x).mp this).1
      · simp only [send_delayed_message, if_neg hok]
        exact ih _ _
    · rw [if_neg hw]
      exact ih _ _

theorem deliverLoop_delivered_key_removed (ok : SchedMsg → Bool) (now : Int) :
    ∀ (s : List SchedMsg) (st : DBState) (m : SchedMsg),
      m ∈ (deliverLoop ok now s st).1 →
      ∀ m' : SchedMsg, m'.user_id = m.user_id → m'.send_time = m.send_time →
        m' ∉ (deliverLoop ok now s st).2.sched
  | [], st, m => by simp [deliverLoop]
  | h :: rest, st, m => by
    have ih := deliverLoop_delivered_key_removed ok now rest
    simp only [deliverLoop]
    by_cases hw : (now - h.send_time).natAbs ≤ 5
    · rw [if_pos hw]
      by_cases hok : ok h = true
      · simp only [send_delayed_message, if_pos hok, eq_self_iff_true, if_true]
        intro hm m' hu ht hmem
        simp only [List.mem_cons] at hm
        rcases hm with rfl | hm
        · have hin := deliverLoop_sched_sub ok now rest _ _ hmem
          exact remove_scheduled_key_not_mem st m.user_id m.send_time m' hu ht hin
        · exact ih _ _ hm m' hu ht hmem
      · simp only [send_delayed_message, if_neg hok]
        intro hm m' hu ht
        exact ih _ _ hm m' hu ht
    · rw [if_neg hw]
      intro hm m' hu ht
      exact ih _ _ hm m' hu ht

theorem deliverLoop_fail_stays (ok : SchedMsg → Bool) (now : Int) (m : SchedMsg)
    (hfail : ∀ m' : SchedMsg, m'.user_id = m.user_id → m'.send_time = m.send_time →
      ok m' = false) :
    ∀ (s : List SchedMsg) (st : DBState),
      m ∈ st.sched → m ∈ (deliverLoop ok now s st).2.sched
  | [], st => by simp [deliverLoop]
  | h :: rest, st => by
    have ih := deliverLoop_fail_stays ok now m hfail rest
    simp only [deliverLoop]
    by_cases hw : (now - h.send_time).natAbs ≤ 5
    · rw [if_pos hw]
      by_cases hok : ok h = true
      · simp only [send_delayed_message, if_pos hok]
        intro hmem
        refine ih _ ?_
        rw [remove_scheduled_mem]
        refine ⟨hmem, ?_⟩
        rintro ⟨hu, ht⟩
        have := hfail h (by rw [hu]) (by rw [ht])
        rw [this] at hok
        exact absurd hok (by simp)
      · simp only [send_delayed_message, if_neg hok]
        exact ih _
    · rw [if_neg hw]
      exact ih _

theorem runPolls_not_mem (m : SchedMsg) :
    ∀ (ps : List (Int × (SchedMsg → Bool))) (st : DBState),
      m ∉ st.sched →
      (∀ d ∈ (runPolls ps st).1, m ∉ d) ∧ m ∉ (runPolls ps st).2.sched
  | [], st => by simp [runPolls]
  | (now, ok) :: rest, st => by
    have ih := runPolls_not_mem m rest
    intro hnm
    simp only [runPolls]
    have hdel : m ∉ (process_scheduled_messages_once ok now st).1 := by
      intro hmem
      exact hnm (deliverLoop_delivered_mem ok now _ _ m hmem).2.1
    have hsched : m ∉ (process_scheduled_messages_once ok now st).2.sched := by
      intro hmem
      exact hnm (deliverLoop_sched_sub ok now _ _ m hmem)
    have ihres := ih _ hsched
    constructor
    · intro d hd
      simp only [List.mem_cons] at hd
      rcases hd with rfl | hd
      · exact hdel
      · exact ihres.1 d hd
    · exact ihres.2

theorem joinLoop_emails_length (env : JoinEnv) (cfg : ChatIdsGroups)
    (chat_id user_id : Int) :
    ∀ (l : List Nat) (st : DBState),
      (joinLoop env cfg chat_id user_id l st).attemptEmails.length =
        (joinLoop env cfg chat_id user_id l st).attemptsUsed
  | [], _ => by simp [joinLoop]
  | a :: rest, st => by
    have ih := joinLoop_emails_length env cfg chat_id user_id rest
    simp only [joinLoop]
    split
    · simp
    · split
      · simp
      · simpa using ih _

/-- Claim C3, counterexample.  The claim states that the notification offset
increments across all chats and all groups of one reconciliation run, so the
scheduled times of the run strictly increase.  With two configured groups,
each owning one chat with one non-entitled member, `check_all_chats` enqueues
both notifications at `base + 0 = 1000`, because `offset_seconds` is
re-initialised to `0` inside the group loop: the times are `[1000, 1000]`,
not strictly increasing. -/
theorem C3_counterexample :
    ((check_all_chats ⟨fun _ => some [], fun _ _ => true, fun _ _ => true⟩ 1000
        [("g1", ⟨[1], [10]⟩), ("g2", ⟨[2], [20]⟩)]
        ⟨[⟨1, 100, "a@x.com"⟩, ⟨2, 200, "b@x.com"⟩], []⟩).2.1.map
          (fun m => m.send_time) = [1000, 1000]) ∧
    ¬ List.Chain' (fun a b => a < b)
        ((check_all_chats ⟨fun _ => some [], fun _ _ => true, fun _ _ => true⟩ 1000
          [("g1", ⟨[1], [10]⟩), ("g2", ⟨[2], [20]⟩)]
          ⟨[⟨1, 100, "a@x.com"⟩, ⟨2, 200, "b@x.com"⟩], []⟩).2.1.map
            (fun m => m.send_time)) := by
  have h : (check_all_chats ⟨fun _ => some [], fun _ _ => true, fun _ _ => true⟩ 1000
      [("g1", ⟨[1], [10]⟩), ("g2", ⟨[2], [20]⟩)]
      ⟨[⟨1, 100, "a@x.com"⟩, ⟨2, 200, "b@x.com"⟩], []⟩).2.1.map
        (fun m => m.send_time) = [1000, 1000] := by decide
  refine ⟨h, ?_⟩
  rw [h]
  intro hchain
  exact absurd (List.chain'_cons.mp hchain).1 (by omega)

/-- Claim C3, amended.  Within the processing of a single configured group,
the deferred notifications are scheduled at `base + 0, base + 1, ...` —
the offset starts at 0 at the beginning of each group's processing and
increments by one time-unit per revocation across all chats of that group,
so the scheduled times enqueued for one group strictly increase by one
time-unit in revocation order; the counter resets at the next group. -/
theorem C3_amended_group_offsets (env : ReconEnv) (base : Int) (st : DBState)
    (g : GroupData) :
    (processGroup env base st g).enq.map (fun m => m.send_time) =
      consecFrom base (processGroup env base st g).enq.length ∧
    List.Chain' (fun a b => a < b)
      ((processGroup env base st g).enq.map (fun m => m.send_time)) := by
  have h := (processChats_enq env (collectGroupEmails env g.gc_group_ids) base
    g.chat_ids st 0).1
  rw [add_zero] at h
  refine ⟨h, ?_⟩
  unfold processGroup
  rw [h]
  exact consecFrom_chain _ _

/-- Claim C5: a member whose revocation raises a platform error (on the ban
or on the unban) keeps their membership record, gets no deferred
notification, does not advance the run's offset counter, and the remaining
members are processed exactly as they would be without that member. -/
theorem C5_revocation_failure (env : ReconEnv) (emails : List String) (base : Int)
    (chat_id : Int) (st : DBState) (off : Int) (user_id : Int) (email : String)
    (rest : List (Int × String))
    (hmem : email ∉ emails)
    (hfail : env.banOk chat_id user_id = false ∨ env.unbanOk chat_id user_id = false) :
    (processMember env emails base chat_id st off user_id email).st = st ∧
    (processMember env emails base chat_id st off user_id email).off = off ∧
    (processMember env emails base chat_id st off user_id email).enq = [] ∧
    (processMembers env emails base chat_id ((user_id, email) :: rest) st off).st =
      (processMembers env emails base chat_id rest st off).st ∧
    (processMembers env emails base chat_id ((user_id, email) :: rest) st off).off =
      (processMembers env emails base chat_id rest st off).off ∧
    (processMembers env emails base chat_id ((user_id, email) :: rest) st off).enq =
      (processMembers env emails base chat_id rest st off).enq := by
  obtain ⟨acts, hpm⟩ : ∃ acts,
      processMember env emails base chat_id st off user_id email =
        ⟨st, off, [], acts⟩ := by
    rcases hfail with hb | hu
    · exact ⟨[], by simp [processMember, hmem, hb]⟩
    · by_cases hb : env.banOk chat_id user_id = true
      · exact ⟨[Act.banned chat_id user_id], by simp [processMember, hmem, hb, hu]⟩
      · exact ⟨[], by simp [processMember, hmem, hb]⟩
  refine ⟨by rw [hpm], by rw [hpm], by rw [hpm], ?_, ?_, ?_⟩ <;>
    simp only [processMembers, hpm] <;> simp

/-- Claim C5, witness. -/
theorem C5_revocation_failure_witness :
    (processMember ⟨fun _ => some [], fun _ _ => false, fun _ _ => true⟩ [] 1000 1
        ⟨[⟨1, 100, "a@x.com"⟩], []⟩ 0 100 "a@x.com").st = ⟨[⟨1, 100, "a@x.com"⟩], []⟩ ∧
    (processMember ⟨fun _ => some [], fun _ _ => false, fun _ _ => true⟩ [] 1000 1
        ⟨[⟨1, 100, "a@x.com"⟩], []⟩ 0 100 "a@x.com").enq = [] :=
  ⟨(C5_revocation_failure ⟨fun _ => some [], fun _ _ => false, fun _ _ => true⟩ [] 1000 1
      ⟨[⟨1, 100, "a@x.com"⟩], []⟩ 0 100 "a@x.com" [] (by decide) (Or.inl rfl)).1,
    (C5_revocation_failure ⟨fun _ => some [], fun _ _ => false, fun _ _ => true⟩ [] 1000 1
      ⟨[⟨1, 100, "a@x.com"⟩], []⟩ 0 100 "a@x.com" [] (by decide) (Or.inl rfl)).2.2.1⟩

/-- Claim C6: the entitled-email set a group's reconciliation uses is the
de-duplicated union over exactly the entitlement-group fetches that succeed;
a failing fetch is skipped without affecting the rest, and the resulting set
is the one handed to the member comparison of every chat of the group. -/
theorem C6_partial_union (env : ReconEnv) (gids : List Int) (e : String) (g : Int)
    (rest : List Int) :
    (e ∈ collectGroupEmails env gids ↔
      ∃ gid ∈ gids, ∃ l, get_group_emails env.fetchEmails gid = some l ∧ e ∈ l) ∧
    (collectGroupEmails env gids).Nodup ∧
    (get_group_emails env.fetchEmails g = none →
      collectGroupEmails env (g :: rest) = collectGroupEmails env rest) ∧
    (∀ (base : Int) (st : DBState) (gd : GroupData),
      processGroup env base st gd =
        processChats env (collectGroupEmails env gd.gc_group_ids) base gd.chat_ids st 0) := by
  refine ⟨?_, List.nodup_dedup _, ?_, fun _ _ _ => rfl⟩
  · rw [collectGroupEmails, List.mem_dedup, List.mem_join]
    constructor
    · rintro ⟨s, hs, he⟩
      rw [List.mem_map] at hs
      obtain ⟨gid, hgid, rfl⟩ := hs
      rcases hval : get_group_emails env.fetchEmails gid with _ | l
      · rw [hval] at he
        simp at he
      · rw [hval] at he
        exact ⟨gid, hgid, l, hval, by simpa using he⟩
    · rintro ⟨gid, hgid, l, hval, he⟩
      refine ⟨(get_group_emails env.fetchEmails gid).getD [],
        List.mem_map.mpr ⟨gid, hgid, rfl⟩, ?_⟩
      rw [hval]
      simpa using he
  · intro hfail
    simp [collectGroupEmails, hfail]

/-- Claim C6, witness. -/
theorem C6_partial_union_witness :
    get_group_emails (fun gid => if gid = 10 then none else some ["a@x.com"]) 10 = none ∧
    collectGroupEmails ⟨fun gid => if gid = 10 then none else some ["a@x.com"],
        fun _ _ => true, fun _ _ => true⟩ [10, 20] =
      collectGroupEmails ⟨fun gid => if gid = 10 then none else some ["a@x.com"],
        fun _ _ => true, fun _ _ => true⟩ [20] :=
  ⟨by decide,
    (C6_partial_union ⟨fun gid => if gid = 10 then none else some ["a@x.com"],
        fun _ _ => true, fun _ _ => true⟩ [10, 20] "a@x.com" 10 [20]).2.2.1
      (by decide)⟩

/-- Claim C9: in `check_and_add_user` the platform approval, the
success-message send and the membership insert are sequential and
non-atomic.  Concrete execution: the email holds group `"10"`, chat `5` is
mapped to gc group `10`, `approve_chat_join_request` succeeds and the
success-message send raises `TelegramAPIError`: the function returns
`False` (a failed attempt) while the approval has already been performed
and no membership record was inserted. -/
theorem C9_nonatomic_approval :
    (check_and_add_user
        ⟨true, fun _ => none, fun _ => Except.ok (some ["10"]), fun _ => true,
          fun _ => false⟩
        0 [("course", ⟨[5], [10]⟩)] ⟨[], []⟩ 5 7 "a@x.com").ok = false ∧
    Act.approvedReq 5 7 ∈
      (check_and_add_user
        ⟨true, fun _ => none, fun _ => Except.ok (some ["10"]), fun _ => true,
          fun _ => false⟩
        0 [("course", ⟨[5], [10]⟩)] ⟨[], []⟩ 5 7 "a@x.com").acts ∧
    (check_and_add_user
        ⟨true, fun _ => none, fun _ => Except.ok (some ["10"]), fun _ => true,
          fun _ => false⟩
        0 [("course", ⟨[5], [10]⟩)] ⟨[], []⟩ 5 7 "a@x.com").st = ⟨[], []⟩ := by
  decide

/-- Claim C4: a dispatcher poll delivers a pending notification only when
`|now - scheduled_time| <= 5` and only if it is in the pending queue;
immediately after a successful delivery the notification is absent from the
queue and no later poll delivers it again (each pending row is delivered at
most once); when every send for the notification's `(user, scheduled_time)`
key fails, the notification is left in the queue for later polls. -/
theorem C4_dispatcher_window_once (ok : SchedMsg → Bool) (now : Int) (st : DBState)
    (m : SchedMsg) (ps : List (Int × (SchedMsg → Bool))) :
    (m ∈ (process_scheduled_messages_once ok now st).1 →
      (now - m.send_time).natAbs ≤ 5 ∧ m ∈ st.sched ∧
      m ∉ (process_scheduled_messages_once ok now st).2.sched ∧
      ∀ d ∈ (runPolls ps (process_scheduled_messages_once ok now st).2).1, m ∉ d) ∧
    (m ∈ st.sched →
      (∀ m' : SchedMsg, m'.user_id = m.user_id → m'.send_time = m.send_time →
        ok m' = false) →
      m ∈ (process_scheduled_messages_once ok now st).2.sched) := by
  constructor
  · intro hm
    have h1 := deliverLoop_delivered_mem ok now st.sched st m hm
    have h2 := deliverLoop_delivered_key_removed ok now st.sched st m hm m rfl rfl
    have h3 := runPolls_not_mem m ps _ h2
    exact ⟨h1.1, h1.2.1, h2, h3.1⟩
  · intro hmem hfail
    exact deliverLoop_fail_stays ok now m hfail st.sched st hmem

/-- Claim C4, witness. -/
theorem C4_dispatcher_window_once_witness :
    ((⟨1, "bye", 1000⟩ : SchedMsg) ∈
      (process_scheduled_messages_once (fun _ => true) 1000
        ⟨[], [⟨1, "bye", 1000⟩]⟩).1) ∧
    ((⟨1, "bye", 1000⟩ : SchedMsg) ∉
      (process_scheduled_messages_once (fun _ => true) 1000
        ⟨[], [⟨1, "bye", 1000⟩]⟩).2.sched) :=
  ⟨by decide,
    ((C4_dispatcher_window_once (fun _ => true) 1000 ⟨[], [⟨1, "bye", 1000⟩]⟩
      ⟨1, "bye", 1000⟩ []).1 (by decide)).2.2.1⟩

/-- Claim C10, counterexample.  The claim states that after a successful
delivery, `remove_scheduled_message` also removes an identically-scheduled
duplicate pending notification of the same user *without delivering it*.
With two identical rows for user 7 at time 1000 and every send succeeding,
one poll at `now = 1000` delivers (sends) BOTH snapshot entries — the
delivered list has both rows — even though the first delivery already
removed both rows from the queue: the duplicate is removed but still
delivered within the same poll. -/
theorem C10_counterexample :
    (process_scheduled_messages_once (fun _ => true) 1000
        ⟨[], [⟨7, "bye", 1000⟩, ⟨7, "bye", 1000⟩]⟩).1 =
      [⟨7, "bye", 1000⟩, ⟨7, "bye", 1000⟩] ∧
    (process_scheduled_messages_once (fun _ => true) 1000
        ⟨[], [⟨7, "bye", 1000⟩, ⟨7, "bye", 1000⟩]⟩).2.sched = [] := by
  decide

/-- Claim C10, amended.  `remove_scheduled_message` deletes every
pending-notification row whose `(user_id, send_time)` equal its arguments —
possibly more than one row — and leaves all other pending notifications and
all membership records unchanged; hence after a successful delivery every
identically-scheduled duplicate of the same user is absent from the queue
and no LATER poll delivers it — but the poll whose snapshot already
contained the duplicate still sends it within that same poll. -/
theorem C10_amended_remove_frame (st : DBState) (user_id send_time : Int)
    (m : SchedMsg) (ok : SchedMsg → Bool) (now : Int)
    (ps : List (Int × (SchedMsg → Bool))) :
    (Database.remove_scheduled_message st user_id send_time).users = st.users ∧
    (∀ x : SchedMsg,
      x ∈ (Database.remove_scheduled_message st user_id send_time).sched ↔
        x ∈ st.sched ∧ ¬(x.user_id = user_id ∧ x.send_time = send_time)) ∧
    (m ∈ (process_scheduled_messages_once ok now st).1 →
      ∀ m' : SchedMsg, m'.user_id = m.user_id → m'.send_time = m.send_time →
        m' ∉ (process_scheduled_messages_once ok now st).2.sched ∧
        ∀ d ∈ (runPolls ps (process_scheduled_messages_once ok now st).2).1, m' ∉ d) := by
  refine ⟨rfl, fun x => remove_scheduled_mem st user_id send_time x, ?_⟩
  intro hm m' hu ht
  have h2 := deliverLoop_delivered_key_removed ok now st.sched st m hm m' hu ht
  exact ⟨h2, (runPolls_not_mem m' ps _ h2).1⟩

/-- Claim C10, witness. -/
theorem C10_amended_remove_frame_witness :
    ((⟨7, "a", 5⟩ : SchedMsg) ∈
      (process_scheduled_messages_once (fun _ => true) 5
        ⟨[], [⟨7, "a", 5⟩, ⟨7, "b", 5⟩]⟩).1) ∧
    ((⟨7, "b", 5⟩ : SchedMsg) ∉
      (process_scheduled_messages_once (fun _ => true) 5
        ⟨[], [⟨7, "a", 5⟩, ⟨7, "b", 5⟩]⟩).2.sched) :=
  ⟨by decide,
    ((C10_amended_remove_frame ⟨[], [⟨7, "a", 5⟩, ⟨7, "b", 5⟩]⟩ 7 5 ⟨7, "a", 5⟩
        (fun _ => true) 5 []).2.2 (by decide) ⟨7, "b", 5⟩ rfl rfl).1⟩

/-- Claim C2: once the greeting is delivered, a join request consumes
exactly 1 or 2 validation attempts before a terminal outcome (approved,
declined as duplicate, or declined after exhausting attempts); a third
attempt never occurs; a non-terminal first attempt produces exactly one
"try another email" prompt and exactly one more attempt, while a flow that
terminates on the first attempt produces none; a failed second attempt ends
with the decline and the final no-access message. -/
theorem C2_retry_policy (env : JoinEnv) (cfg : ChatIdsGroups) (chat_id user_id : Int)
    (st : DBState) (hhello : env.helloOk = true) :
    ((handle_join_request env cfg chat_id user_id st).attemptsUsed = 1 ∨
      (handle_join_request env cfg chat_id user_id st).attemptsUsed = 2) ∧
    ((handle_join_request env cfg chat_id user_id st).outcome = Outcome.approved ∨
      (handle_join_request env cfg chat_id user_id st).outcome = Outcome.declinedDuplicate ∨
      (handle_join_request env cfg chat_id user_id st).outcome = Outcome.declinedNoAccess) ∧
    ((handle_join_request env cfg chat_id user_id st).attemptsUsed = 2 →
      (handle_join_request env cfg chat_id user_id st).acts.count Act.sentTry2 = 1) ∧
    ((handle_join_request env cfg chat_id user_id st).attemptsUsed = 1 →
      (handle_join_request env cfg chat_id user_id st).acts.count Act.sentTry2 = 0) ∧
    ((handle_join_request env cfg chat_id user_id st).outcome = Outcome.declinedNoAccess →
      (handle_join_request env cfg chat_id user_id st).attemptsUsed = 2 ∧
      Act.declinedReq chat_id user_id ∈ (handle_join_request env cfg chat_id user_id st).acts ∧
      Act.sentNoAccess ∈ (handle_join_request env cfg chat_id user_id st).acts) := by
  have hred : handle_join_request env cfg chat_id user_id st =
      { joinLoop env cfg chat_id user_id [0, 1] st with
        acts := Act.sentHello :: (joinLoop env cfg chat_id user_id [0, 1] st).acts } := by
    rw [handle_join_request, if_pos hhello]
  rw [hred]
  have hle := joinLoop_attempts_le env cfg chat_id user_id [0, 1] st
  have hone := joinLoop_one_le env cfg chat_id user_id 0 [1] st
  have hoc := joinLoop_outcome_cases env cfg chat_id user_id [0, 1] st
  have hna := joinLoop_noAccess_attempts env cfg chat_id user_id [0, 1] st
  have ht2 := joinLoop_try2_count env cfg chat_id user_id [0, 1] st
  have hnacts := joinLoop_noAccess_acts env cfg chat_id user_id [0, 1] st
  simp only [List.length_cons, List.length_nil] at hle hna
  have hcnt : (Act.sentHello :: (joinLoop env cfg chat_id user_id [0, 1] st).acts).count
      Act.sentTry2 = (joinLoop env cfg chat_id user_id [0, 1] st).acts.count
        Act.sentTry2 := by
    simp [List.count_cons]
  refine ⟨by simpa using (by omega : (joinLoop env cfg chat_id user_id [0, 1] st).attemptsUsed = 1 ∨
      (joinLoop env cfg chat_id user_id [0, 1] st).attemptsUsed = 2), by simpa using hoc,
    ?_, ?_, ?_⟩
  · intro h2
    simp only at h2
    simp only [hcnt, ht2]
    by_cases hno : (joinLoop env cfg chat_id user_id [0, 1] st).outcome =
        Outcome.declinedNoAccess
    · rw [if_pos hno, h2]
      decide
    · rw [if_neg hno, h2]
      decide
  · intro h1
    simp only at h1
    simp only [hcnt, ht2]
    by_cases hno : (joinLoop env cfg chat_id user_id [0, 1] st).outcome =
        Outcome.declinedNoAccess
    · exact absurd (hna hno) (by omega)
    · rw [if_neg hno, h1]
      decide
  · intro hno
    simp only at hno
    refine ⟨by simpa using hna hno, ?_, ?_⟩
    · exact List.mem_cons_of_mem _ (hnacts hno).1
    · exact List.mem_cons_of_mem _ (hnacts hno).2

/-- Claim C2, witness. -/
theorem C2_retry_policy_witness :
    (handle_join_request ⟨true, fun _ => none, fun _ => Except.error (), fun _ => true,
        fun _ => true⟩ [] 1 2 ⟨[], []⟩).attemptsUsed = 1 ∨
    (handle_join_request ⟨true, fun _ => none, fun _ => Except.error (), fun _ => true,
        fun _ => true⟩ [] 1 2 ⟨[], []⟩).attemptsUsed = 2 :=
  (C2_retry_policy ⟨true, fun _ => none, fun _ => Except.error (), fun _ => true,
    fun _ => true⟩ [] 1 2 ⟨[], []⟩ rfl).1

/-- Claim C1: if the store's emails are pairwise distinct, then the join
flow preserves that invariant; any validation attempt supplying an email
already present in the store is declined by the duplicate check with the
store unchanged (no second record for that email is ever inserted); a
non-approved flow leaves the store untouched and an approved flow inserts
exactly one record whose email was not yet present; the daily
reconciliation (which only deletes records) also preserves the
invariant. -/
theorem C1_email_uniqueness (env : JoinEnv) (cfg : ChatIdsGroups) (chat_id user_id : Int)
    (st : DBState) (h : EmailsUnique st) :
    EmailsUnique (handle_join_request env cfg chat_id user_id st).st ∧
    (∀ e ∈ (handle_join_request env cfg chat_id user_id st).attemptEmails,
      Database.is_duplicate st e = true →
        (handle_join_request env cfg chat_id user_id st).outcome =
          Outcome.declinedDuplicate ∧
        (handle_join_request env cfg chat_id user_id st).st = st ∧
        Act.declinedReq chat_id user_id ∈
          (handle_join_request env cfg chat_id user_id st).acts) ∧
    ((handle_join_request env cfg chat_id user_id st).outcome ≠ Outcome.approved →
      (handle_join_request env cfg chat_id user_id st).st = st) ∧
    ((handle_join_request env cfg chat_id user_id st).outcome = Outcome.approved →
      ∃ e, Database.is_duplicate st e = false ∧
        (handle_join_request env cfg chat_id user_id st).st =
          Database.add st user_id e chat_id) ∧
    (∀ (renv : ReconEnv) (rbase : Int) (rcfg : ChatIdsGroups),
      EmailsUnique (check_all_chats renv rbase rcfg st).1) := by
  have hrecon : ∀ (renv : ReconEnv) (rbase : Int) (rcfg : ChatIdsGroups),
      EmailsUnique (check_all_chats renv rbase rcfg st).1 := by
    intro renv rbase rcfg
    exact List.Nodup.sublist
      ((check_all_chats_users_sublist renv rbase rcfg st).map (fun r => r.email)) h
  by_cases hhello : env.helloOk = true
  · have hred : handle_join_request env cfg chat_id user_id st =
        { joinLoop env cfg chat_id user_id [0, 1] st with
          acts := Act.sentHello :: (joinLoop env cfg chat_id user_id [0, 1] st).acts } := by
      rw [handle_join_request, if_pos hhello]
    rw [hred]
    have hoc := joinLoop_outcome_cases env cfg chat_id user_id [0, 1] st
    refine ⟨?_, ?_, ?_, ?_, hrecon⟩
    · show EmailsUnique (joinLoop env cfg chat_id user_id [0, 1] st).st
      rcases hoc with ha | hd | hn
      · obtain ⟨e, hdup, hst⟩ := joinLoop_st_of_approved env cfg chat_id user_id [0, 1] st ha
        rw [hst]
        show (((Database.add st user_id e chat_id).users).map (fun r => r.email)).Nodup
        simp only [Database.add, List.map_append, List.map_cons, List.map_nil]
        rw [List.nodup_append]
        refine ⟨h, by simp, ?_⟩
        intro x hx hx'
        simp only [List.mem_cons, List.not_mem_nil, or_false] at hx'
        subst hx'
        exact (is_duplicate_eq_false_iff st x).mp hdup hx
      · rw [joinLoop_st_of_not_approved env cfg chat_id user_id [0, 1] st (by simp [hd])]
        exact h
      · rw [joinLoop_st_of_not_approved env cfg chat_id user_id [0, 1] st (by simp [hn])]
        exact h
    · intro e he hdup
      have hd := joinLoop_duplicate env cfg chat_id user_id [0, 1] st e (by simpa using he)
        hdup
      exact ⟨by simpa using hd.1, by simpa using hd.2.1,
        List.mem_cons_of_mem _ hd.2.2⟩
    · intro hne
      exact joinLoop_st_of_not_approved env cfg chat_id user_id [0, 1] st
        (by simpa using hne)
    · intro ha
      exact joinLoop_st_of_approved env cfg chat_id user_id [0, 1] st (by simpa using ha)
  · have hred : handle_join_request env cfg chat_id user_id st =
        ⟨Outcome.noGreeting, st, [], 0, []⟩ := by
      rw [handle_join_request, if_neg hhello]
    rw [hred]
    refine ⟨h, by simp, fun _ => rfl, ?_, hrecon⟩
    intro ha
    simp at ha

/-- Claim C1, witness. -/
theorem C1_email_uniqueness_witness :
    EmailsUnique ⟨[⟨1, 2, "b@x.com"⟩], []⟩ ∧
    EmailsUnique (handle_join_request ⟨true, fun _ => some "b@x.com",
      fun _ => Except.error (), fun _ => true, fun _ => true⟩ [] 3 4
      ⟨[⟨1, 2, "b@x.com"⟩], []⟩).st :=
  ⟨by unfold EmailsUnique; decide,
    (C1_email_uniqueness ⟨true, fun _ => some "b@x.com", fun _ => Except.error (),
      fun _ => true, fun _ => true⟩ [] 3 4 ⟨[⟨1, 2, "b@x.com"⟩], []⟩
      (by unfold EmailsUnique; decide)).1⟩

/-- Claim C7: when the email's entitlement groups intersect the chat's
allowed groups but the platform approval or the success-message send raises
`TelegramAPIError`, `check_and_add_user` returns `False` (a failed
approval) with the store unchanged; the flow as a whole is never restarted:
any join flow sends the greeting at most once and consumes at most two
attempts. -/
theorem C7_platform_failure_is_failed_attempt (env : JoinEnv) (attempt : Nat)
    (cfg : ChatIdsGroups) (st : DBState) (chat_id user_id : Int) (email : String)
    (gids : List String) (allowed : List Int)
    (hgc : get_user_group_ids_by_email env.gcApi email = Except.ok (some gids))
    (hne : gids.isEmpty = false)
    (hfind : findAllowedGroups cfg chat_id = some allowed)
    (hint : allowed.any (fun g => gids.contains (toString g)) = true)
    (hfail : env.approveOk attempt = false ∨ env.sendAccessOk attempt = false) :
    (check_and_add_user env attempt cfg st chat_id user_id email).ok = false ∧
    (check_and_add_user env attempt cfg st chat_id user_id email).st = st ∧
    (∀ (env' : JoinEnv) (st' : DBState) (c u : Int),
      (handle_join_request env' cfg c u st').acts.count Act.sentHello ≤ 1 ∧
      (handle_join_request env' cfg c u st').attemptsUsed ≤ 2) := by
  constructor
  · unfold check_and_add_user
    rw [hgc]
    simp only [hne, Bool.false_eq_true, if_false, hfind, hint, if_true]
    rcases hfail with happ | hsend
    · simp [happ]
    · by_cases happ : env.approveOk attempt = true
      · simp [happ, hsend]
      · simp [happ]
  constructor
  · apply cau_st_eq_of_not_ok
    unfold check_and_add_user
    rw [hgc]
    simp only [hne, Bool.false_eq_true, if_false, hfind, hint, if_true]
    rcases hfail with happ | hsend
    · simp [happ]
    · by_cases happ : env.approveOk attempt = true
      · simp [happ, hsend]
      · simp [happ]
  · intro env' st' c u
    by_cases hh : env'.helloOk = true
    · have hred : handle_join_request env' cfg c u st' =
          { joinLoop env' cfg c u [0, 1] st' with
            acts := Act.sentHello :: (joinLoop env' cfg c u [0, 1] st').acts } := by
        rw [handle_join_request, if_pos hh]
      rw [hred]
      constructor
      · show (Act.sentHello :: (joinLoop env' cfg c u [0, 1] st').acts).count
          Act.sentHello ≤ 1
        rw [List.count_cons_self,
          List.count_eq_zero.mpr (joinLoop_sentHello_not_mem env' cfg c u [0, 1] st')]
      · simpa using joinLoop_attempts_le env' cfg c u [0, 1] st'
    · have hred : handle_join_request env' cfg c u st' =
          ⟨Outcome.noGreeting, st', [], 0, []⟩ := by
        rw [handle_join_request, if_neg hh]
      rw [hred]
      simp

/-- Claim C7, witness. -/
theorem C7_platform_failure_is_failed_attempt_witness :
    (check_and_add_user ⟨true, fun _ => none, fun _ => Except.ok (some ["10"]),
      fun _ => true, fun _ => false⟩ 0 [("course", ⟨[5], [10]⟩)] ⟨[], []⟩ 5 7
      "a@x.com").ok = false :=
  (C7_platform_failure_is_failed_attempt ⟨true, fun _ => none,
    fun _ => Except.ok (some ["10"]), fun _ => true, fun _ => false⟩ 0
    [("course", ⟨[5], [10]⟩)] ⟨[], []⟩ 5 7 "a@x.com" ["10"] [10] rfl (by decide)
    (by decide) (by decide) (Or.inr rfl)).1

/-- Claim C8: a user who sends nothing within the email-wait timeout gets
the empty string as the wait's result with the per-user wait slot cleared;
the empty email always fails validation (`check_and_add_user` returns
`False` and leaves the store unchanged, since the GetCourse client raises
on an empty email); and in the full flow the timeout on the first attempt
consumes exactly one of the two attempts — the flow proceeds to a second
attempt and terminates, rather than staying pending. -/
theorem C8_timeout_consumes_attempt (futures : List Int) (env : JoinEnv)
    (cfg : ChatIdsGroups) (chat_id user_id : Int) (st : DBState)
    (htimeout : env.arrival 0 = none)
    (hhello : env.helloOk = true)
    (hnodup : Database.is_duplicate st "" = false) :
    wait_for_email futures user_id none =
      ("", futures.filter (fun u => !(u == user_id))) ∧
    user_id ∉ (wait_for_email futures user_id none).2 ∧
    (∀ (a : Nat) (st' : DBState) (c u : Int),
      (check_and_add_user env a cfg st' c u "").ok = false ∧
      (check_and_add_user env a cfg st' c u "").st = st') ∧
    (handle_join_request env cfg chat_id user_id st).attemptsUsed = 2 ∧
    (handle_join_request env cfg chat_id user_id st).attemptEmails.head? = some "" := by
  refine ⟨wait_for_email_timeout futures user_id,
    wait_for_email_slot_cleared futures user_id none, ?_, ?_⟩
  · intro a st' c u
    rw [check_and_add_user_empty_email]
    exact ⟨rfl, rfl⟩
  · have hred : handle_join_request env cfg chat_id user_id st =
        { joinLoop env cfg chat_id user_id [0, 1] st with
          acts := Act.sentHello :: (joinLoop env cfg chat_id user_id [0, 1] st).acts } := by
      rw [handle_join_request, if_pos hhello]
    rw [hred]
    have hle1 := joinLoop_attempts_le env cfg chat_id user_id [1] st
    have h11 := joinLoop_one_le env cfg chat_id user_id 1 [] st
    simp only [List.length_cons, List.length_nil] at hle1
    simp only [joinLoop, htimeout, wait_for_email, Option.map_none', Option.getD_none,
      hnodup, Bool.false_eq_true, if_false, check_and_add_user_empty_email]
    constructor
    · show (joinLoop env cfg chat_id user_id [1] st).attemptsUsed + 1 = 2
      omega
    · rfl

/-- Claim C8, witness. -/
theorem C8_timeout_consumes_attempt_witness :
    (handle_join_request ⟨true, fun _ => none, fun _ => Except.error (), fun _ => true,
      fun _ => true⟩ [] 1 2 ⟨[], []⟩).attemptsUsed = 2 :=
  (C8_timeout_consumes_attempt [] ⟨true, fun _ => none, fun _ => Except.error (),
    fun _ => true, fun _ => true⟩ [] 1 2 ⟨[], []⟩ rfl rfl (by decide)).2.2.2.1

end GCBot
